import Mathlib

/-!
# Verification of the mongoose-sequenceable counter/sequence subsystem

Shallow embedding of the repository's counter allocation protocol
(`lib/counter.model.js` / the bundled variants), the sequenceable field
validator and the default sequence formatter (`index.js` / bundled
variants), together with proofs of the frozen specification claims.

JavaScript strings are modelled as `List Char`; the persisted counter
collection is modelled as a list of rows (insertion order preserved,
`findOneAndUpdate` operates on the first row matching the criteria);
asynchronous store outcomes are modelled by an explicit schedule of
replies, one per `findOneAndUpdate` round trip.
-/

/-- JavaScript strings, modelled as lists of characters. -/
abbrev JStr := List Char

/-- The constant `DEFAULT_VALUE = 'sequence'`, the placeholder installed as the field
default by the plugin. -/
def DEFAULT_VALUE : JStr := "sequence".toList

/-- The constant `SEQUENCE_NAMESPACE = getString('SEQUENCE_NAMESPACE', 'Sequence')`. -/
def SEQUENCE_NAMESPACE : JStr := "Sequence".toList

/-- The constant `SEQUENCE_START = getNumber('SEQUENCE_START', 1)`. -/
def SEQUENCE_START : Int := 1

/-- The constant `SEQUENCE_INCREMENT = getNumber('SEQUENCE_INCREMENT', 1)`. -/
def SEQUENCE_INCREMENT : Int := 1

/-- The constant `SEQUENCE_LENGTH = getNumber('SEQUENCE_LENGTH', 4)`. -/
def SEQUENCE_LENGTH : Nat := 4

/-- The constant `SEQUENCE_PAD = getNumber('SEQUENCE_PAD', '0')` rendered as the string
lodash produces for it when used as a padding argument. -/
def SEQUENCE_PAD : JStr := "0".toList

/-- The constant `SEQUENCE_SEPARATOR = getNumber('SEQUENCE_SEPARATOR', '')`. -/
def SEQUENCE_SEPARATOR : JStr := "".toList

/-! ## Decimal rendering of JavaScript numbers (`String(sequence)`)

`Nat.digits` is defined by well-founded recursion and does not reduce in
the kernel, so the executable renderer uses an explicitly fuelled digit
extractor, proved equal to `Nat.digits 10` below. -/

/-- Little-endian base-10 digits of `n`, with explicit fuel so the
definition is structural (hence kernel-computable).  `decDigitsAux n n`
computes the digits of `n`. -/
def decDigitsAux : Nat → Nat → List Nat
  | _, 0 => []
  | 0, _ + 1 => []
  | fuel + 1, n + 1 => (n + 1) % 10 :: decDigitsAux fuel ((n + 1) / 10)

/-- Little-endian base-10 digits of `n`. -/
def decDigits (n : Nat) : List Nat := decDigitsAux n n

/-- The rendering `String(n)` for a non-negative integer-valued JavaScript number. -/
def natRender (n : Nat) : JStr :=
  if n = 0 then ['0'] else ((decDigits n).map Nat.digitChar).reverse

/-- The rendering `String(i)` for an integer-valued JavaScript number. -/
def intRender (i : Int) : JStr :=
  if i < 0 then '-' :: natRender i.natAbs else natRender i.toNat

/-- Numeric value of a decimal digit character (proof-side inverse of
`Nat.digitChar`). -/
def charVal (c : Char) : Nat := c.toNat - 48

/-- Decode a big-endian string of decimal digits back to a number
(proof-side left inverse of zero-padded rendering). -/
def decodeDigits (l : JStr) : Nat := Nat.ofDigits 10 ((l.map charVal).reverse)

/-! ## The default formatter (`_format` in `index.js`, `doFormat` in the
bundled variant) -/

/-- lodash `_.padStart(string, length, chars)`: left-pad `s` to `len`
characters using `pad`, repeated and truncated as needed; no-op when `s`
is already long enough or the padding string is empty. -/
def padStart (s : JStr) (len : Nat) (pad : JStr) : JStr :=
  if len ≤ s.length ∨ pad.length = 0 then s
  else ((List.replicate len pad).flatten.take (len - s.length)) ++ s

/-- JavaScript `Array.prototype.join(separator)` on a list of strings. -/
def joinSep (sep : JStr) : List JStr → JStr
  | [] => []
  | [x] => x
  | x :: xs => x ++ sep ++ joinSep sep xs

/-- The argument object handed to a sequence formatter: counter fields
plus the resolved formatting options (and the timestamp the bundled
validator adds). -/
structure FmtArgs where
  nsp : JStr
  pre : JStr
  seqN : Int
  suf : Option JStr
  length : Nat
  pad : JStr
  separator : JStr
  date : JStr

/-- The default sequence formatter `doFormat`: left-pad the decimal
rendering of `sequence` to `length` characters with `pad`, then
`[prefix, padded, suffix].join(separator)`.  An absent (`undefined`)
suffix is rendered by `join` as the empty string. -/
def doFormat (a : FmtArgs) : JStr :=
  joinSep a.separator [a.pre, padStart (intRender a.seqN) a.length a.pad, a.suf.getD []]

/-- Modelled from the spec: the formatter as the specification words it,
joining `prefix`, the padded sequence and `suffix` with `separator` while
*skipping absent parts* (an absent suffix contributes no part, hence no
separator).  Compared against `doFormat`, which is translated from the
source. -/
def specSkipFormat (a : FmtArgs) : JStr :=
  joinSep a.separator
    (([some a.pre, some (padStart (intRender a.seqN) a.length a.pad), a.suf]).filterMap id)


/-! ## The persisted Counter collection and the atomic allocation primitive

`Counter.generate` delegates the atomic read-modify-write to MongoDB's
`findOneAndUpdate(criteria, { $inc: { sequence: increment } },
{ upsert: true, new: true, setDefaultsOnInsert: true })`.  The store is
external to the repository; its semantics are modelled as follows:

* the collection is a list of rows; `findOneAndUpdate` updates the first
  row matching the criteria in place and returns the updated row;
* on upsert-insert, MongoDB's `$inc` on the absent `sequence` field
  treats it as `0`, so the inserted row has `sequence = increment`; the
  schema default `SEQUENCE_START` is *not* applied, because mongoose's
  `setDefaultsOnInsert` skips paths already modified by the update
  (`$inc.sequence`).  This matches the repository's own documented
  behaviour (the `'20180001'` example: the first generated sequence for
  a fresh key with increment 1 is `0001`, not `0002`) and the spec's
  custom-increment property (a fresh key with `increment = 10` yields
  `sequence = 10`). -/

/-- A persisted Counter row.  `suf = none` models a document without a
`suffix` field. -/
structure Counter where
  nsp : JStr
  pre : JStr
  suf : Option JStr
  seq : Int
deriving DecidableEq, Repr

/-- The counter collection, in insertion order. -/
abbrev Store := List Counter

/-- The query criteria built by `generate`:
`_.omitBy({ namespace, prefix, suffix }, _.isUndefined)` — `suf = none`
means the suffix constraint is omitted from the query entirely. -/
structure Criteria where
  nsp : JStr
  pre : JStr
  suf : Option JStr
deriving DecidableEq, Repr

/-- Whether a row matches the criteria.  When the criteria omit the
suffix, any stored suffix (or none) matches. -/
def matchesCriteria (c : Criteria) (r : Counter) : Bool :=
  r.nsp == c.nsp && r.pre == c.pre &&
    (match c.suf with
     | none => true
     | some s => r.suf == some s)

/-- The row MongoDB inserts on upsert: the criteria's equality
constraints become field values and `$inc` starts the absent `sequence`
field from `0` (see the module comment above: `setDefaultsOnInsert` does
not apply the `SEQUENCE_START` default to a path the update modifies). -/
def freshRow (c : Criteria) (inc : Int) : Counter :=
  { nsp := c.nsp, pre := c.pre, suf := c.suf, seq := 0 + inc }

/-- Increment the first row matching the criteria, returning the updated
row (`new: true`) and the updated store; `none` when no row matches. -/
def incFirstMatch (c : Criteria) (inc : Int) : Store → Option (Counter × Store)
  | [] => none
  | r :: rs =>
    if matchesCriteria c r then
      some ({ r with seq := r.seq + inc }, { r with seq := r.seq + inc } :: rs)
    else
      match incFirstMatch c inc rs with
      | some (u, rs2) => some (u, r :: rs2)
      | none => none

/-- The call `findOneAndUpdate` with `$inc`, `upsert: true`, `new: true`,
`setDefaultsOnInsert: true`: increment the first matching row, or insert
a fresh row when none matches.  Returns the post-increment row and the
updated store. -/
def upsertInc (store : Store) (c : Criteria) (inc : Int) : Counter × Store :=
  match incFirstMatch c inc store with
  | some res => res
  | none => (freshRow c inc, store ++ [freshRow c inc])

/-- Lookup (`findOne`) by criteria: the first matching row. -/
def findRow (store : Store) (c : Criteria) : Option Counter :=
  store.find? (matchesCriteria c)

/-! ## `Counter.generate` -/

/-- One store round trip outcome, as observed by the
`afterFindOneAndUpdate` callback: success (a non-null post-increment
counter, null error), a store-level error (no mutation, all-or-nothing),
or a null counter with a null error. -/
inductive StoreReply where
  | ok : StoreReply
  | storeError : StoreReply
  | nullCounter : StoreReply
deriving DecidableEq, Repr

/-- The error value a failed round trip would carry. -/
inductive JsError where
  | storeError : JsError
deriving DecidableEq, Repr

/-- The options object accepted by `Counter.generate` (fields absent
from the caller's object are `none`; lodash `merge` ignores `undefined`
sources, so `none` falls back to the defaults). -/
structure GenOptions where
  nsp : Option JStr := none
  pre : Option JStr := none
  suf : Option JStr := none
  increment : Option Int := none

/-- The criteria `generate` builds after merging defaults:
`namespace` falls back to `SEQUENCE_NAMESPACE`, `prefix` to the current
year string (`moment(new Date()).format(SEQUENCE_YEAR_FORMAT)`, passed
here as `today`), and `suffix` — which has no default — is omitted from
the criteria when `undefined`. -/
def resolvedCriteria (today : JStr) (o : GenOptions) : Criteria :=
  { nsp := o.nsp.getD SEQUENCE_NAMESPACE, pre := o.pre.getD today, suf := o.suf }

/-- The increment `generate` uses after merging defaults. -/
def resolvedInc (o : GenOptions) : Int :=
  o.increment.getD SEQUENCE_INCREMENT

/-- The retry loop of `generate`: issue `findOneAndUpdate`; if the
callback sees a null error and a counter, invoke `done(null, counter)`;
otherwise recurse with the same resolved options (`generate(options,
done)`).  The `schedule` supplies one `StoreReply` per round trip;
`none` means the schedule was exhausted while the loop was still
retrying (the source loops forever). -/
def generateLoop (store : Store) (c : Criteria) (inc : Int) :
    List StoreReply → Option (Option JsError × Counter × Store)
  | [] => none
  | StoreReply.ok :: _ =>
    let res := upsertInc store c inc
    some (none, res.1, res.2)
  | StoreReply.storeError :: rest => generateLoop store c inc rest
  | StoreReply.nullCounter :: rest => generateLoop store c inc rest

/-- The entry point `Counter.generate(optns, done)`: merge defaults, build the criteria
(omitting an undefined suffix) and run the retry loop.  The result is
what `done` receives (error and post-increment counter) paired with the
final store state. -/
def generateRun (today : JStr) (optns : GenOptions) (store : Store)
    (schedule : List StoreReply) : Option (Option JsError × Counter × Store) :=
  generateLoop store (resolvedCriteria today optns) (resolvedInc optns) schedule

/-- A run of `N` back-to-back allocations for one key (the serialization the
store's single-row atomicity imposes on `N` concurrent callers),
returning the issued sequence values in order. -/
def allocateN (store : Store) (c : Criteria) (inc : Int) : Nat → List Int
  | 0 => []
  | n + 1 =>
    let res := upsertInc store c inc
    res.1.seq :: allocateN res.2 c inc n


/-! ## The sequenceable field validator (`createValidator` /
`sequenceValidator` in the bundled variant) -/

/-- JavaScript `x || d` for an optional string option (`''`, like
`undefined`, is falsy and falls back to the default; this also models
the `_.isEmpty` fallbacks of `createPrefix` / `createSuffix`, which
coincide with truthiness on strings). -/
def jsOr (x : Option JStr) (d : JStr) : JStr :=
  match x with
  | none => d
  | some s => if s.isEmpty then d else s

/-- JavaScript `x || d` for an optional numeric option (`0` is falsy). -/
def jsOrNat (x : Option Nat) (d : Nat) : Nat :=
  match x with
  | none => d
  | some n => if n = 0 then d else n

/-- lodash `_.isEmpty` on a possibly-`undefined` string. -/
def jsIsEmpty (v : Option JStr) : Bool :=
  match v with
  | none => true
  | some s => s.isEmpty

/-- lodash `_.isError` on the callback's error argument. -/
def jsIsError (e : Option JsError) : Bool :=
  e.isSome

/-- The sequenceable options attached to a schema path (after the plugin
merged in `pathName`; literal `prefix` / `suffix` options — a derived
function is evaluated against the instance before this point and is
equivalent to passing its result). -/
structure SeqOptions where
  nsp : Option JStr := none
  pre : Option JStr := none
  suf : Option JStr := none
  increment : Option Int := none
  length : Option Nat := none
  pad : Option JStr := none
  separator : Option JStr := none
  format : Option (FmtArgs → JStr) := none

/-- One run of `sequenceValidator` on a document instance: `v` is the
current value of the sequenceable path, `modelName` the instance's model
name, `today` the current date rendering.  Returns the value the
validator resolves with, the path's value afterwards and the final store,
or `none` when the generate retry loop never completed.

Resolution (from the source): `namespace = namespace || modelName`,
`prefix = createPrefix(prefix)()`, `suffix = createSuffix(suffix)()`,
`length = length || SEQUENCE_LENGTH`, `pad = pad || SEQUENCE_PAD`,
`separator = separator || SEQUENCE_SEPARATOR`; the options object passed
to `Counter.generate` drops `undefined` entries (`_.omitBy`), so an
absent `increment` falls back inside `generate`.  If the path already
holds a non-placeholder value starting with the resolved prefix the
validator resolves `true` immediately; otherwise it generates, assigns
`format(counterFields, length, pad, separator, date)` to the path and
resolves `!_.isError(error) && !_.isEmpty(path value)`. -/
def runValidator (today modelName : JStr) (opts : SeqOptions) (v : Option JStr)
    (store : Store) (schedule : List StoreReply) :
    Option (Bool × Option JStr × Store) :=
  let nspR := jsOr opts.nsp modelName
  let preR := jsOr opts.pre today
  let sufR := jsOr opts.suf []
  let lenR := jsOrNat opts.length SEQUENCE_LENGTH
  let padR := jsOr opts.pad SEQUENCE_PAD
  let sepR := jsOr opts.separator SEQUENCE_SEPARATOR
  let fmt := opts.format.getD doFormat
  let isSeq := (v != some DEFAULT_VALUE) && preR.isPrefixOf (v.getD [])
  if isSeq then
    some (true, v, store)
  else
    let gopts : GenOptions :=
      { nsp := some nspR, pre := some preR, suf := some sufR,
        increment := opts.increment }
    match generateRun today gopts store schedule with
    | none => none
    | some (e, ctr, store2) =>
      let v2 : Option JStr :=
        some (fmt { nsp := ctr.nsp, pre := ctr.pre, seqN := ctr.seq,
                    suf := ctr.suf, length := lenR, pad := padR,
                    separator := sepR, date := today })
      some ((!jsIsError e) && (!jsIsEmpty v2), v2, store2)


/-! ## Lemmas: decimal rendering and zero-padding -/

lemma decDigitsAux_eq_digits : ∀ fuel n : Nat, n ≤ fuel → decDigitsAux fuel n = Nat.digits 10 n := by
  intro fuel
  induction fuel with
  | zero =>
    intro n hn
    interval_cases n
    simp [decDigitsAux]
  | succ fuel ih =>
    intro n hn
    cases n with
    | zero => simp [decDigitsAux]
    | succ m =>
      rw [decDigitsAux, Nat.digits_def' (by norm_num : (1:ℕ) < 10) (Nat.succ_pos m)]
      have hdiv : (m + 1) / 10 ≤ fuel := by
        have := Nat.div_lt_self (Nat.succ_pos m) (by norm_num : (1:ℕ) < 10)
        omega
      rw [ih _ hdiv]

lemma decDigits_eq_digits (n : Nat) : decDigits n = Nat.digits 10 n :=
  decDigitsAux_eq_digits n n le_rfl

lemma charVal_digitChar : ∀ d, d < 10 → charVal (Nat.digitChar d) = d := by decide

lemma ofDigits_replicate_zero : ∀ k, Nat.ofDigits 10 (List.replicate k 0) = 0 := by
  intro k
  induction k with
  | zero => simp [Nat.ofDigits]
  | succ k ih => simp [List.replicate_succ, Nat.ofDigits_cons, ih]

/-- Decoding is a left inverse of rendering, even through any amount of
left zero-padding. -/
lemma decodeDigits_pad_render (k n : Nat) :
    decodeDigits (List.replicate k '0' ++ natRender n) = n := by
  unfold decodeDigits natRender
  by_cases h0 : n = 0
  · subst h0
    simp only [if_pos rfl, List.map_append, List.map_replicate, List.reverse_append,
      List.reverse_replicate]
    show Nat.ofDigits 10 (List.reverse [charVal '0'] ++ List.replicate k (charVal '0')) = 0
    have : charVal '0' = 0 := by decide
    simp [this, Nat.ofDigits_cons, ofDigits_replicate_zero]
  · rw [if_neg h0]
    have hvals : ((decDigits n).map Nat.digitChar).map charVal = decDigits n := by
      rw [List.map_map]
      have hmap : List.map (charVal ∘ Nat.digitChar) (decDigits n)
          = List.map id (decDigits n) := by
        apply List.map_congr_left
        intro d hd
        have hd10 : d < 10 := by
          rw [decDigits_eq_digits] at hd
          exact Nat.digits_lt_base (by norm_num) hd
        exact charVal_digitChar d hd10
      rw [hmap, List.map_id]
    have hcv0 : charVal '0' = 0 := by decide
    rw [List.map_append, List.map_replicate, hcv0, List.map_reverse, hvals,
      List.reverse_append, List.reverse_reverse, List.reverse_replicate,
      Nat.ofDigits_append, ofDigits_replicate_zero, decDigits_eq_digits,
      Nat.ofDigits_digits]
    ring

/-- Padding via `padStart` with the default pad character reduces to prepending
zeros. -/
lemma padStart_zero (s : JStr) (len : Nat) :
    padStart s len SEQUENCE_PAD = List.replicate (len - s.length) '0' ++ s := by
  unfold padStart
  have hsp : SEQUENCE_PAD = ['0'] := rfl
  rw [hsp]
  by_cases h : len ≤ s.length
  · rw [if_pos (Or.inl h)]
    have : len - s.length = 0 := Nat.sub_eq_zero_of_le h
    rw [this]
    simp
  · rw [if_neg (by simp [h])]
    have hflat : (List.replicate len (['0'] : JStr)).flatten = List.replicate len '0' := by
      induction len with
      | zero => simp
      | succ k ih => simp [List.replicate_succ, ih]
    rw [hflat, List.take_replicate]
    congr 2
    omega

/-- Zero-padded decimal rendering is injective on non-negative
sequence values. -/
lemma padRender_inj (len : Nat) (m n : Int) (hm : 0 ≤ m) (hn : 0 ≤ n)
    (h : padStart (intRender m) len SEQUENCE_PAD = padStart (intRender n) len SEQUENCE_PAD) :
    m = n := by
  have hm' : ¬ m < 0 := not_lt.mpr hm
  have hn' : ¬ n < 0 := not_lt.mpr hn
  rw [intRender, if_neg hm', intRender, if_neg hn', padStart_zero, padStart_zero] at h
  have := congrArg decodeDigits h
  rw [decodeDigits_pad_render, decodeDigits_pad_render] at this
  omega

/-! ## Lemmas: the default formatter -/

/-- The join `[prefix, padded, suffix].join(separator)` unfolded. -/
lemma doFormat_unfold (a : FmtArgs) :
    doFormat a
      = a.pre ++ a.separator
          ++ (padStart (intRender a.seqN) a.length a.pad ++ a.separator ++ a.suf.getD []) := by
  simp [doFormat, joinSep, List.append_assoc]

/-- With a fixed key and formatting options, the default pad `'0'` and
non-negative sequence values, the default formatter is injective in the
sequence value. -/
lemma doFormat_inj (a : FmtArgs) (hpad : a.pad = SEQUENCE_PAD) (m n : Int)
    (hm : 0 ≤ m) (hn : 0 ≤ n)
    (h : doFormat { a with seqN := m } = doFormat { a with seqN := n }) : m = n := by
  rw [doFormat_unfold, doFormat_unfold] at h
  simp only [List.append_assoc] at h
  have h1 := List.append_cancel_left h
  have h2 := List.append_cancel_left h1
  rw [← List.append_assoc, ← List.append_assoc] at h2
  have h3 := List.append_cancel_right h2
  have h4 := List.append_cancel_right h3
  exact padRender_inj a.length m n hm hn (by simpa [hpad] using h4)

/-! ## Lemmas: the allocation primitive -/

/-- Criteria matching ignores the sequence value. -/
lemma matchesCriteria_setSeq (c : Criteria) (r : Counter) (x : Int) :
    matchesCriteria c { r with seq := x } = matchesCriteria c r := rfl

/-- A freshly upserted row matches the criteria that produced it. -/
lemma matchesCriteria_freshRow (c : Criteria) (inc : Int) :
    matchesCriteria c (freshRow c inc) = true := by
  cases hs : c.suf <;> simp [matchesCriteria, freshRow, hs]

/-- The updated row returned by `incFirstMatch` is the first matching
row with the increment applied. -/
lemma incFirstMatch_map_fst (c : Criteria) (inc : Int) :
    ∀ store : Store,
      (incFirstMatch c inc store).map Prod.fst
        = (store.find? (matchesCriteria c)).map (fun r => { r with seq := r.seq + inc }) := by
  intro store
  induction store with
  | nil => simp [incFirstMatch]
  | cons r rs ih =>
    by_cases hm : matchesCriteria c r
    · rw [incFirstMatch, if_pos hm, List.find?_cons_of_pos _ hm]
      simp
    · rw [incFirstMatch, if_neg hm, List.find?_cons_of_neg _ hm]
      cases hI : incFirstMatch c inc rs with
      | none => rw [hI] at ih; exact ih
      | some u =>
        rw [hI] at ih
        obtain ⟨u1, u2⟩ := u
        exact ih

/-- The update `incFirstMatch` fails exactly when no row matches. -/
lemma incFirstMatch_eq_none (c : Criteria) (inc : Int) (store : Store)
    (h : store.find? (matchesCriteria c) = none) : incFirstMatch c inc store = none := by
  have := incFirstMatch_map_fst c inc store
  rw [h] at this
  cases hI : incFirstMatch c inc store with
  | none => rfl
  | some u => rw [hI] at this; simp at this

/-- The counter returned by one allocation is determined by the first
matching row: the match with the increment applied, or the fresh row. -/
lemma upsertInc_fst (store : Store) (c : Criteria) (inc : Int) :
    (upsertInc store c inc).1
      = (match findRow store c with
         | some r => { r with seq := r.seq + inc }
         | none => freshRow c inc) := by
  unfold upsertInc findRow
  have hmap := incFirstMatch_map_fst c inc store
  cases hF : store.find? (matchesCriteria c) with
  | none =>
    rw [hF] at hmap
    cases hI : incFirstMatch c inc store with
    | none => rfl
    | some u => rw [hI] at hmap; simp at hmap
  | some r =>
    rw [hF] at hmap
    cases hI : incFirstMatch c inc store with
    | none => rw [hI] at hmap; simp at hmap
    | some u =>
      rw [hI] at hmap
      have hu : u.1 = { r with seq := r.seq + inc } := by simpa using hmap
      exact hu

/-- If no row matches, the allocation appends the fresh row. -/
lemma upsertInc_snd_of_fresh (store : Store) (c : Criteria) (inc : Int)
    (h : findRow store c = none) :
    (upsertInc store c inc).2 = store ++ [freshRow c inc] := by
  unfold upsertInc
  rw [incFirstMatch_eq_none c inc store h]

/-- Rows that do not match the criteria survive a successful in-place
increment. -/
lemma mem_incFirstMatch (c : Criteria) (inc : Int) :
    ∀ (store : Store) (u : Counter) (st2 : Store),
      incFirstMatch c inc store = some (u, st2) →
      ∀ r ∈ store, matchesCriteria c r = false → r ∈ st2 := by
  intro store
  induction store with
  | nil => intro u st2 h; simp [incFirstMatch] at h
  | cons a as ih =>
    intro u st2 h r hr hnm
    by_cases hm : matchesCriteria c a
    · rw [incFirstMatch, if_pos hm] at h
      injection h with h1
      injection h1 with hu hst
      subst hst
      rcases List.mem_cons.mp hr with rfl | hr'
      · rw [hnm] at hm; cases hm
      · exact List.mem_cons_of_mem _ hr'
    · rw [incFirstMatch, if_neg hm] at h
      cases hI : incFirstMatch c inc as with
      | none => rw [hI] at h; exact Option.noConfusion h
      | some p =>
        obtain ⟨u2, as2⟩ := p
        rw [hI] at h
        injection h with h1
        injection h1 with hu hst
        subst hst
        rcases List.mem_cons.mp hr with rfl | hr'
        · exact List.mem_cons_self _ _
        · exact List.mem_cons_of_mem _ (ih u2 as2 hI r hr' hnm)

/-- Frame property of one allocation: every row that does not match the
criteria is still present afterwards. -/
lemma mem_upsertInc_snd (store : Store) (c : Criteria) (inc : Int) (r : Counter)
    (hr : r ∈ store) (hnm : matchesCriteria c r = false) :
    r ∈ (upsertInc store c inc).2 := by
  unfold upsertInc
  cases hI : incFirstMatch c inc store with
  | none => simp [hr]
  | some u =>
    cases u with
    | mk u1 u2 => exact mem_incFirstMatch c inc store u1 u2 hI r hr hnm

/-- After a successful allocation, the first row matching the criteria
is exactly the counter the allocation returned. -/
lemma findRow_upsertInc (store : Store) (c : Criteria) (inc : Int) :
    findRow (upsertInc store c inc).2 c = some (upsertInc store c inc).1 := by
  induction store with
  | nil =>
    simp [upsertInc, incFirstMatch, findRow, List.find?, matchesCriteria_freshRow]
  | cons a as ih =>
    by_cases hm : matchesCriteria c a
    · unfold upsertInc incFirstMatch
      rw [if_pos hm]
      simp only [findRow, List.find?]
      rw [show matchesCriteria c { a with seq := a.seq + inc } = true from
        (matchesCriteria_setSeq c a (a.seq + inc)).trans hm]
    · cases hI : incFirstMatch c inc as with
      | some p =>
        cases p with
        | mk u as2 =>
          have hup : upsertInc (a :: as) c inc = (u, a :: as2) := by
            unfold upsertInc incFirstMatch
            rw [if_neg hm, hI]
          have hup2 : upsertInc as c inc = (u, as2) := by
            unfold upsertInc
            rw [hI]
          rw [hup]
          simp only [findRow, List.find?, hm]
          rw [hup2] at ih
          exact ih
      | none =>
        have hup : upsertInc (a :: as) c inc
            = (freshRow c inc, (a :: as) ++ [freshRow c inc]) := by
          unfold upsertInc incFirstMatch
          rw [if_neg hm, hI]
        have hup2 : upsertInc as c inc = (freshRow c inc, as ++ [freshRow c inc]) := by
          unfold upsertInc
          rw [hI]
        rw [hup]
        simp only [findRow, List.cons_append, List.find?, hm]
        rw [hup2] at ih
        exact ih

/-- A second allocation for the same criteria returns the previous
counter with the increment applied once more. -/
lemma upsertInc_upsertInc (store : Store) (c : Criteria) (inc : Int) :
    (upsertInc (upsertInc store c inc).2 c inc).1
      = { (upsertInc store c inc).1 with seq := (upsertInc store c inc).1.seq + inc } := by
  rw [upsertInc_fst, findRow_upsertInc]

/-! ## Lemmas: the generate retry loop -/

/-- Whenever the retry loop completes, the callback receives a null
error together with the result of a single successful allocation against
the store as it was when `generate` was called (failed round trips
mutate nothing). -/
lemma generateLoop_eq_some (store : Store) (c : Criteria) (inc : Int) :
    ∀ (sch : List StoreReply) (e : Option JsError) (ctr : Counter) (st2 : Store),
      generateLoop store c inc sch = some (e, ctr, st2) →
      e = none ∧ (ctr, st2) = upsertInc store c inc := by
  intro sch
  induction sch with
  | nil => intro e ctr st2 h; exact Option.noConfusion h
  | cons rep rest ih =>
    intro e ctr st2 h
    cases rep with
    | ok =>
      rw [generateLoop] at h
      injection h with h1
      injection h1 with he h2
      injection h2 with hc hs
      exact ⟨he.symm, by rw [← hc, ← hs]⟩
    | storeError => exact ih e ctr st2 h
    | nullCounter => exact ih e ctr st2 h

/-- A completed `generate` call on a key with no matching row creates
the row (appending it to the collection) and hands the callback the
post-increment counter, whose sequence is exactly the increment. -/
lemma generateRun_fresh (today : JStr) (optns : GenOptions) (store : Store)
    (sch : List StoreReply) (e : Option JsError) (ctr : Counter) (st2 : Store)
    (hfresh : findRow store (resolvedCriteria today optns) = none)
    (hrun : generateRun today optns store sch = some (e, ctr, st2)) :
    e = none ∧ ctr = freshRow (resolvedCriteria today optns) (resolvedInc optns)
      ∧ ctr.seq = resolvedInc optns ∧ st2 = store ++ [ctr] := by
  obtain ⟨he, hres⟩ := generateLoop_eq_some store _ _ sch e ctr st2 hrun
  have hfst := congrArg Prod.fst hres
  have hsnd := congrArg Prod.snd hres
  simp only at hfst hsnd
  rw [upsertInc_fst, hfresh] at hfst
  rw [upsertInc_snd_of_fresh store _ _ hfresh] at hsnd
  refine ⟨he, hfst, ?_, ?_⟩
  · rw [hfst]; simp [freshRow]
  · rw [hsnd, hfst]

/-! ## Lemmas: repeated allocation -/

/-- A non-matching head is transparent to the returned counter. -/
lemma upsertInc_fst_cons (a : Counter) (as : Store) (c : Criteria) (inc : Int)
    (hm : matchesCriteria c a = false) :
    (upsertInc (a :: as) c inc).1 = (upsertInc as c inc).1 := by
  rw [upsertInc_fst, upsertInc_fst]
  unfold findRow
  rw [List.find?_cons_of_neg _ (by simp [hm])]

/-- The sequence values issued by `n` successive allocations for one
key form the arithmetic progression starting one increment above the
pre-call state. -/
lemma allocateN_closed (c : Criteria) (inc : Int) :
    ∀ (n : Nat) (store : Store),
      allocateN store c inc n
        = (List.range n).map (fun (k : Nat) => (upsertInc store c inc).1.seq + (k : Int) * inc) := by
  intro n
  induction n with
  | zero => intro store; simp [allocateN]
  | succ m ih =>
    intro store
    show (upsertInc store c inc).1.seq :: allocateN (upsertInc store c inc).2 c inc m
      = (List.range (m + 1)).map (fun (k : Nat) => (upsertInc store c inc).1.seq + (k : Int) * inc)
    rw [ih (upsertInc store c inc).2, upsertInc_upsertInc]
    rw [List.range_succ_eq_map, List.map_cons, List.map_map]
    congr 1
    · simp
    · apply List.map_congr_left
      intro k _
      simp only [Function.comp]
      push_cast
      ring

/-- With a nonzero increment the issued sequence values are pairwise
distinct. -/
lemma allocateN_nodup (store : Store) (c : Criteria) (inc : Int) (n : Nat)
    (hinc : inc ≠ 0) : (allocateN store c inc n).Nodup := by
  rw [allocateN_closed]
  apply List.Nodup.map
  · intro a b hab
    have h1 : (a : Int) * inc = (b : Int) * inc := by
      have := hab
      simp only at this
      omega
    have h2 : (a : Int) = (b : Int) := mul_right_cancel₀ hinc h1
    exact_mod_cast h2
  · exact List.nodup_range n

/-- Every issued sequence value is at least the first one. -/
lemma allocateN_mem_nonneg (store : Store) (c : Criteria) (inc : Int) (n : Nat)
    (hinc : 0 < inc) (hs0 : 0 ≤ (upsertInc store c inc).1.seq) :
    ∀ q ∈ allocateN store c inc n, 0 ≤ q := by
  rw [allocateN_closed]
  intro q hq
  obtain ⟨k, _, rfl⟩ := List.mem_map.mp hq
  have : (0 : Int) ≤ (k : Int) * inc := mul_nonneg (by exact_mod_cast Nat.zero_le k) (le_of_lt hinc)
  omega

/-- With the default pad `'0'` and non-negative sequence values, the
formatted outputs of pairwise distinct allocations are pairwise
distinct. -/
lemma allocateN_map_doFormat_nodup (store : Store) (c : Criteria) (inc : Int) (n : Nat)
    (a : FmtArgs) (hinc : 0 < inc) (hpad : a.pad = SEQUENCE_PAD)
    (hs0 : 0 ≤ (upsertInc store c inc).1.seq) :
    ((allocateN store c inc n).map (fun q => doFormat { a with seqN := q })).Nodup := by
  have hnd := allocateN_nodup store c inc n (ne_of_gt hinc)
  have hnn := allocateN_mem_nonneg store c inc n hinc hs0
  apply List.Nodup.map_on _ hnd
  intro x hx y hy hxy
  exact doFormat_inj a hpad x y (hnn x hx) (hnn y hy) hxy

/-! ## The claims -/

/-- C1, counterexample: for a fresh key and `increment = 10`, a single
`generate` call returns `sequence = 10`, not
`start_value + increment = 11`: the schema's start default does not
contribute to the inserted value. -/
theorem c1_counterexample :
    (generateRun [] { increment := some 10 } [] [StoreReply.ok]).map
        (fun r => r.2.1.seq) = some 10
    ∧ (10 : Int) ≠ SEQUENCE_START + 10 := by decide

/-- C1 (amended): for every key with no existing Counter row and every
increment `i`, a single completed call to `Counter.generate` creates the
row and returns it with `sequence = i` (the schema's configured start
default is not added, since the increment is applied to the absent field
as part of the same upsert); the caller never observes the bare default
value without the increment applied. -/
theorem c1_fresh_creates_and_increments (today : JStr) (optns : GenOptions)
    (store : Store) (sch : List StoreReply) (e : Option JsError) (ctr : Counter)
    (st2 : Store)
    (hfresh : findRow store (resolvedCriteria today optns) = none)
    (hrun : generateRun today optns store sch = some (e, ctr, st2)) :
    e = none ∧ ctr.seq = resolvedInc optns
      ∧ ctr = freshRow (resolvedCriteria today optns) (resolvedInc optns)
      ∧ st2 = store ++ [ctr] := by
  obtain ⟨he, hc, hs, hst⟩ :=
    generateRun_fresh today optns store sch e ctr st2 hfresh hrun
  exact ⟨he, hs, hc, hst⟩

/-- C1, witness: the amended theorem at a concrete fresh key with
increment 10. -/
theorem c1_witness :
    (none : Option JsError) = none
    ∧ ({ nsp := SEQUENCE_NAMESPACE, pre := [], suf := none, seq := 10 } : Counter).seq
        = resolvedInc { increment := some 10 }
    ∧ ({ nsp := SEQUENCE_NAMESPACE, pre := [], suf := none, seq := 10 } : Counter)
        = freshRow (resolvedCriteria [] { increment := some 10 })
            (resolvedInc { increment := some 10 })
    ∧ ([{ nsp := SEQUENCE_NAMESPACE, pre := [], suf := none, seq := 10 }] : Store)
        = [] ++ [{ nsp := SEQUENCE_NAMESPACE, pre := [], suf := none, seq := 10 }] :=
  c1_fresh_creates_and_increments [] { increment := some 10 } [] [StoreReply.ok]
    none { nsp := SEQUENCE_NAMESPACE, pre := [], suf := none, seq := 10 }
    [{ nsp := SEQUENCE_NAMESPACE, pre := [], suf := none, seq := 10 }]
    (by decide) (by decide)

/-- C2: for a fresh key with no existing Counter row, a completed
`generate` call with `increment = 10` returns a counter whose sequence
equals 10, not 1. -/
theorem c2_increment_ten (today : JStr) (optns : GenOptions) (store : Store)
    (sch : List StoreReply) (e : Option JsError) (ctr : Counter) (st2 : Store)
    (hinc : optns.increment = some 10)
    (hfresh : findRow store (resolvedCriteria today optns) = none)
    (hrun : generateRun today optns store sch = some (e, ctr, st2)) :
    ctr.seq = 10 ∧ ctr.seq ≠ 1 := by
  obtain ⟨-, -, hs, -⟩ :=
    generateRun_fresh today optns store sch e ctr st2 hfresh hrun
  have : resolvedInc optns = 10 := by simp [resolvedInc, hinc]
  rw [hs, this]
  norm_num

/-- C2, witness: the theorem at a concrete fresh key. -/
theorem c2_witness :
    ({ nsp := SEQUENCE_NAMESPACE, pre := [], suf := none, seq := 10 } : Counter).seq = 10
    ∧ ({ nsp := SEQUENCE_NAMESPACE, pre := [], suf := none, seq := 10 } : Counter).seq ≠ 1 :=
  c2_increment_ten [] { increment := some 10 } [] [StoreReply.ok]
    none { nsp := SEQUENCE_NAMESPACE, pre := [], suf := none, seq := 10 }
    [{ nsp := SEQUENCE_NAMESPACE, pre := [], suf := none, seq := 10 }]
    rfl (by decide) (by decide)

/-- C3: `generate` never passes a store-level error to its callback: a
failed or counter-less round trip is retried transparently with the same
resolved options and untouched store, and whenever the loop completes the
callback receives a null error together with the post-increment counter
of the single successful allocation. -/
theorem c3_no_error_to_callback (today : JStr) (optns : GenOptions) (store : Store)
    (sch : List StoreReply) (e : Option JsError) (ctr : Counter) (st2 : Store) :
    (generateRun today optns store (StoreReply.storeError :: sch)
        = generateRun today optns store sch
      ∧ generateRun today optns store (StoreReply.nullCounter :: sch)
        = generateRun today optns store sch)
    ∧ (generateRun today optns store sch = some (e, ctr, st2) →
        e = none
        ∧ (ctr, st2) = upsertInc store (resolvedCriteria today optns) (resolvedInc optns)) := by
  refine ⟨⟨rfl, rfl⟩, ?_⟩
  intro h
  exact generateLoop_eq_some store _ _ sch e ctr st2 h

/-- C3, witness: a run that fails twice before succeeding completes with
a null error and the single allocation's counter. -/
theorem c3_witness :
    (none : Option JsError) = none
    ∧ (({ nsp := SEQUENCE_NAMESPACE, pre := [], suf := none, seq := 1 } : Counter),
        ([{ nsp := SEQUENCE_NAMESPACE, pre := [], suf := none, seq := 1 }] : Store))
      = upsertInc [] (resolvedCriteria [] {}) (resolvedInc {}) :=
  (c3_no_error_to_callback [] {} []
      [StoreReply.storeError, StoreReply.nullCounter, StoreReply.ok]
      none { nsp := SEQUENCE_NAMESPACE, pre := [], suf := none, seq := 1 }
      [{ nsp := SEQUENCE_NAMESPACE, pre := [], suf := none, seq := 1 }]).2
    (by decide)

/-- C4: idempotent skip — if the sequenceable field already holds a
value that is not the placeholder `'sequence'` and starts with the
resolved prefix, a validation pass performs no allocation or store round
trip (the result is independent of the reply schedule and the store is
returned untouched), leaves the field unchanged and reports it valid;
consequently validating twice yields the same field value as validating
once. -/
theorem c4_idempotent_skip (today modelName : JStr) (opts : SeqOptions)
    (store : Store) (s : JStr)
    (hns : s ≠ DEFAULT_VALUE)
    (hpre : (jsOr opts.pre today).isPrefixOf s = true) :
    (∀ sch, runValidator today modelName opts (some s) store sch
        = some (true, some s, store))
    ∧ ∀ sch1 sch2,
        (runValidator today modelName opts (some s) store sch1).bind
            (fun r => runValidator today modelName opts r.2.1 r.2.2 sch2)
          = runValidator today modelName opts (some s) store sch1 := by
  have h1 : ∀ sch, runValidator today modelName opts (some s) store sch
      = some (true, some s, store) := by
    intro sch
    simp [runValidator, hpre, bne_iff_ne, hns]
  refine ⟨h1, ?_⟩
  intro sch1 sch2
  rw [h1 sch1]
  exact h1 sch2

/-- C4, witness: the skip at a concrete field value `'vip0001'` with
resolved prefix `'vip'`, using an empty reply schedule (no store round
trip available, none needed). -/
theorem c4_witness :
    runValidator ("26".toList) "Ticket".toList { pre := some ("vip".toList) }
        (some ("vip0001".toList)) [] []
      = some (true, some ("vip0001".toList), []) :=
  (c4_idempotent_skip ("26".toList) "Ticket".toList { pre := some ("vip".toList) }
    [] "vip0001".toList (by decide) (by decide)).1 []

/-- C5, counterexample: the default formatter does not skip absent
parts — with a nonempty separator and an absent (`undefined`) suffix it
renders a trailing separator, where the claimed skipping behaviour
(`specSkipFormat`) would not. -/
theorem c5_counterexample :
    doFormat { nsp := [], pre := "VIP".toList, seqN := 1, suf := none,
               length := 4, pad := "0".toList, separator := "-".toList, date := [] }
        = "VIP-0001-".toList
    ∧ specSkipFormat
        { nsp := [], pre := "VIP".toList, seqN := 1, suf := none,
          length := 4, pad := "0".toList, separator := "-".toList, date := [] }
        = "VIP-0001".toList
    ∧ ("VIP-0001-".toList : JStr) ≠ "VIP-0001".toList := by decide

/-- C5 (amended): the default formatter left-pads the decimal rendering
of `sequence` to `length` characters using `pad`, then joins `prefix`,
the padded sequence and `suffix` with `separator` (empty-string join when
the separator is unset), rendering an absent part as the empty string
while keeping both separators (absent parts are not skipped); in
particular, for `sequence=1, length=4, pad='0', prefix="VIP",
suffix="", separator=""` it returns exactly `"VIP0001"`. -/
theorem c5_default_formatter (a : FmtArgs) :
    doFormat a
      = a.pre ++ a.separator
          ++ (padStart (intRender a.seqN) a.length a.pad ++ (a.separator ++ a.suf.getD []))
    ∧ doFormat
        { nsp := [], pre := "VIP".toList, seqN := 1, suf := some [],
          length := 4, pad := "0".toList, separator := [], date := [] }
        = "VIP0001".toList := by
  constructor
  · rw [doFormat_unfold]
    simp [List.append_assoc]
  · decide

/-- C6: monotonicity — for a fixed key and a constant positive
increment, two sequential completed `generate` calls return strictly
increasing sequence values. -/
theorem c6_monotonic (today : JStr) (optns : GenOptions) (store : Store)
    (sch1 sch2 : List StoreReply) (e1 e2 : Option JsError) (c1 c2 : Counter)
    (st1 st2 : Store)
    (hinc : 0 < resolvedInc optns)
    (h1 : generateRun today optns store sch1 = some (e1, c1, st1))
    (h2 : generateRun today optns st1 sch2 = some (e2, c2, st2)) :
    c1.seq < c2.seq := by
  obtain ⟨-, hr1⟩ := generateLoop_eq_some store _ _ sch1 e1 c1 st1 h1
  obtain ⟨-, hr2⟩ := generateLoop_eq_some st1 _ _ sch2 e2 c2 st2 h2
  have hc1 := congrArg Prod.fst hr1
  have hst1 := congrArg Prod.snd hr1
  have hc2 := congrArg Prod.fst hr2
  simp only at hc1 hst1 hc2
  rw [hst1] at hc2
  rw [hc2, upsertInc_upsertInc, hc1]
  simp only
  omega

/-- C6, witness: two consecutive default allocations for one key issue
1 then 2. -/
theorem c6_witness :
    ({ nsp := SEQUENCE_NAMESPACE, pre := [], suf := none, seq := 1 } : Counter).seq
      < ({ nsp := SEQUENCE_NAMESPACE, pre := [], suf := none, seq := 2 } : Counter).seq :=
  c6_monotonic [] {} [] [StoreReply.ok] [StoreReply.ok]
    none none
    { nsp := SEQUENCE_NAMESPACE, pre := [], suf := none, seq := 1 }
    { nsp := SEQUENCE_NAMESPACE, pre := [], suf := none, seq := 2 }
    [{ nsp := SEQUENCE_NAMESPACE, pre := [], suf := none, seq := 1 }]
    [{ nsp := SEQUENCE_NAMESPACE, pre := [], suf := none, seq := 2 }]
    (by decide) (by decide) (by decide)

/-- C7, counterexample: with a non-default pad two records allocated in
parallel for the same key can receive the same formatted sequence — the
1st and 11th of eleven concurrent allocations with increment 10 for one
key obtain the distinct sequences 10 and 110, yet with `pad='1'`,
`length=4` both format to `vip1110`. -/
theorem c7_counterexample :
    (10 : Int) ∈ allocateN [] { nsp := "Ticket".toList, pre := "vip".toList, suf := some [] } 10 11
    ∧ (110 : Int) ∈ allocateN [] { nsp := "Ticket".toList, pre := "vip".toList, suf := some [] } 10 11
    ∧ (10 : Int) ≠ 110
    ∧ doFormat
        { nsp := "Ticket".toList, pre := "vip".toList, seqN := 10, suf := some [],
          length := 4, pad := "1".toList, separator := [], date := [] }
      = doFormat
        { nsp := "Ticket".toList, pre := "vip".toList, seqN := 110, suf := some [],
          length := 4, pad := "1".toList, separator := [], date := [] } := by decide

/-- C7 (amended): for any fixed key and positive constant increment, `N`
concurrent `generate` calls — serialized by the store's single-row
atomicity into `N` successive allocations — yield the gap-free arithmetic
progression of sequence values starting one increment above the pre-call
state, hence `N` pairwise-distinct sequences with no duplicates; and
with the default pad `'0'` (and the resulting non-negative sequence
values) the formatted sequences are also pairwise distinct — the
formatted-output clause requires the default pad, since with `pad='1'`
distinct sequences 10 and 110 format identically. -/
theorem c7_concurrent_distinct (store : Store) (c : Criteria) (inc : Int) (n : Nat)
    (a : FmtArgs) (hinc : 0 < inc) (hpad : a.pad = SEQUENCE_PAD)
    (hs0 : 0 ≤ (upsertInc store c inc).1.seq) :
    allocateN store c inc n
        = (List.range n).map
            (fun (k : Nat) => (upsertInc store c inc).1.seq + (k : Int) * inc)
    ∧ (allocateN store c inc n).Nodup
    ∧ ((allocateN store c inc n).map (fun q => doFormat { a with seqN := q })).Nodup :=
  ⟨allocateN_closed c inc n store,
   allocateN_nodup store c inc n (ne_of_gt hinc),
   allocateN_map_doFormat_nodup store c inc n a hinc hpad hs0⟩

/-- C7, witness: three concurrent default allocations for a fresh key
issue 1, 2, 3 with pairwise-distinct formatted outputs. -/
theorem c7_witness :
    allocateN [] { nsp := "Ticket".toList, pre := "vip".toList, suf := some [] } 1 3
        = (List.range 3).map
            (fun (k : Nat) =>
              (upsertInc [] { nsp := "Ticket".toList, pre := "vip".toList, suf := some [] } 1).1.seq
                + (k : Int) * 1)
    ∧ (allocateN [] { nsp := "Ticket".toList, pre := "vip".toList, suf := some [] } 1 3).Nodup
    ∧ ((allocateN [] { nsp := "Ticket".toList, pre := "vip".toList, suf := some [] } 1 3).map
        (fun q => doFormat
          { nsp := "Ticket".toList, pre := "vip".toList, seqN := q, suf := some [],
            length := 4, pad := "0".toList, separator := [], date := [] })).Nodup := by
  have h := c7_concurrent_distinct []
    { nsp := "Ticket".toList, pre := "vip".toList, suf := some [] } 1 3
    { nsp := "Ticket".toList, pre := "vip".toList, seqN := 0, suf := some [],
      length := 4, pad := "0".toList, separator := [], date := [] }
    (by decide) rfl (by decide)
  exact h

/-- C8: on the generation path (the field does not already hold a valid
sequence), a completed validator run reports valid exactly when the field
ends up non-empty: the retry loop only completes with a null error, so an
empty-after-formatting field makes the validator resolve `false` — a
recoverable validation failure, not a thrown exception. -/
theorem c8_valid_iff_nonempty (today modelName : JStr) (opts : SeqOptions)
    (v : Option JStr) (store : Store) (sch : List StoreReply)
    (ok : Bool) (v2 : Option JStr) (st2 : Store)
    (hskip : ((v != some DEFAULT_VALUE)
        && (jsOr opts.pre today).isPrefixOf (v.getD [])) = false)
    (hrun : runValidator today modelName opts v store sch = some (ok, v2, st2)) :
    ok = !jsIsEmpty v2 := by
  simp only [runValidator] at hrun
  rw [hskip] at hrun
  simp only [Bool.false_eq_true, if_false] at hrun
  split at hrun
  · exact Option.noConfusion hrun
  · rename_i e ctr store3 hg
    injection hrun with h1
    injection h1 with hok h2
    injection h2 with hv2 hst
    obtain ⟨he, -⟩ := generateLoop_eq_some store _ _ sch e ctr store3 hg
    subst he
    rw [← hok, ← hv2]
    simp [jsIsError]

/-- C8, witness: with a custom formatter producing the empty string the
validator completes with `false` (the field ends up empty) instead of
raising. -/
theorem c8_witness : false = !jsIsEmpty (some ([] : JStr)) :=
  c8_valid_iff_nonempty [] "Ticket".toList { format := some (fun _ => ([] : JStr)) }
    (some DEFAULT_VALUE) [] [StoreReply.ok]
    false (some [])
    [{ nsp := "Ticket".toList, pre := [], suf := some [], seq := 1 }]
    (by decide) (by decide)

/-- C9, counterexample: a `generate` call whose key omits the suffix
(key A = `(Ticket, 26, undefined)`) increments the Counter row of the
distinct key B = `(Ticket, 26, 'X')`: B's row is mutated from sequence 5
to 6 and is no longer present unchanged. -/
theorem c9_counterexample :
    generateRun []
        { nsp := some ("Ticket".toList), pre := some ("26".toList),
          suf := none, increment := some 1 }
        [{ nsp := "Ticket".toList, pre := "26".toList, suf := some ("X".toList), seq := 5 }]
        [StoreReply.ok]
      = some (none,
          { nsp := "Ticket".toList, pre := "26".toList, suf := some ("X".toList), seq := 6 },
          [{ nsp := "Ticket".toList, pre := "26".toList, suf := some ("X".toList), seq := 6 }])
    ∧ ({ nsp := "Ticket".toList, pre := "26".toList, suf := none } : Criteria)
        ≠ { nsp := "Ticket".toList, pre := "26".toList, suf := some ("X".toList) }
    ∧ ({ nsp := "Ticket".toList, pre := "26".toList, suf := some ("X".toList), seq := 5 } : Counter)
        ∉ ([{ nsp := "Ticket".toList, pre := "26".toList, suf := some ("X".toList), seq := 6 }] : Store) := by
  decide

/-- C9 (amended): key isolation holds once the key's suffix is part of
the criteria (as the validator always arranges, resolving an absent
suffix to `''`): a completed `generate` call for key A leaves every row
of a different full key present untouched, and the counter it returns
depends only on the first row matching A's criteria — not on the rows of
other keys.  (When A's suffix is `undefined` the criteria omit it and the
call may instead mutate another key's row, see the counterexample.) -/
theorem c9_key_isolation (today : JStr) (optns : GenOptions) (store : Store)
    (sch : List StoreReply) (e : Option JsError) (ctr : Counter) (st2 : Store) (s : JStr)
    (hs : optns.suf = some s)
    (hrun : generateRun today optns store sch = some (e, ctr, st2)) :
    (∀ r ∈ store,
        (r.nsp, r.pre, r.suf)
            ≠ ((resolvedCriteria today optns).nsp,
               (resolvedCriteria today optns).pre, some s) →
        r ∈ st2)
    ∧ ∀ (store2 : Store) (sch2 : List StoreReply) (e2 : Option JsError)
        (ctr2 : Counter) (st3 : Store),
        findRow store2 (resolvedCriteria today optns)
            = findRow store (resolvedCriteria today optns) →
        generateRun today optns store2 sch2 = some (e2, ctr2, st3) →
        ctr2 = ctr := by
  obtain ⟨-, hres⟩ := generateLoop_eq_some store _ _ sch e ctr st2 hrun
  have hctr := congrArg Prod.fst hres
  have hst2 := congrArg Prod.snd hres
  simp only at hctr hst2
  have hsuf : (resolvedCriteria today optns).suf = some s := by
    simp [resolvedCriteria, hs]
  constructor
  · intro r hr hne
    rw [hst2]
    apply mem_upsertInc_snd store _ _ r hr
    by_cases hm : matchesCriteria (resolvedCriteria today optns) r
    · exfalso
      apply hne
      simp only [matchesCriteria, hsuf, Bool.and_eq_true, beq_iff_eq] at hm
      obtain ⟨⟨h1, h2⟩, h3⟩ := hm
      rw [h1, h2, h3]
    · simp only [Bool.not_eq_true] at hm
      exact hm
  · intro store2 sch2 e2 ctr2 st3 hfind hrun2
    obtain ⟨-, hres2⟩ := generateLoop_eq_some store2 _ _ sch2 e2 ctr2 st3 hrun2
    have hctr2 := congrArg Prod.fst hres2
    simp only at hctr2
    rw [hctr2, hctr, upsertInc_fst, upsertInc_fst, hfind]

/-- C9, witness: the amended isolation at a concrete key with a defined
suffix. -/
theorem c9_witness :
    ({ suf := some ("X".toList) } : GenOptions).suf = some ("X".toList)
    ∧ ((∀ r ∈ ([] : Store),
          (r.nsp, r.pre, r.suf)
              ≠ ((resolvedCriteria [] { suf := some ("X".toList) }).nsp,
                 (resolvedCriteria [] { suf := some ("X".toList) }).pre,
                 some ("X".toList)) →
          r ∈ ([{ nsp := SEQUENCE_NAMESPACE, pre := [], suf := some ("X".toList),
                  seq := 1 }] : Store))
       ∧ ∀ (store2 : Store) (sch2 : List StoreReply) (e2 : Option JsError)
           (ctr2 : Counter) (st3 : Store),
           findRow store2 (resolvedCriteria [] { suf := some ("X".toList) })
               = findRow [] (resolvedCriteria [] { suf := some ("X".toList) }) →
           generateRun [] { suf := some ("X".toList) } store2 sch2 = some (e2, ctr2, st3) →
           ctr2 = { nsp := SEQUENCE_NAMESPACE, pre := [], suf := some ("X".toList),
                    seq := 1 }) :=
  ⟨rfl,
   c9_key_isolation [] { suf := some ("X".toList) } [] [StoreReply.ok] none
     { nsp := SEQUENCE_NAMESPACE, pre := [], suf := some ("X".toList), seq := 1 }
     [{ nsp := SEQUENCE_NAMESPACE, pre := [], suf := some ("X".toList), seq := 1 }]
     "X".toList rfl (by decide)⟩

/-- C10: when the suffix option is `undefined`, the find-and-increment
criteria omit the suffix constraint entirely, so the query is constrained
only by namespace and prefix and can match and increment a row regardless
of that row's stored suffix; a call with suffix resolved to `''` builds
different criteria and addresses the store differently — on a store
holding only the row `(Ticket, 26, 'X', 5)`, the suffix-`undefined` call
increments that row to 6 while the suffix-`''` call upserts a fresh row
instead. -/
theorem c10_suffix_criteria (nsp0 pre0 : JStr) (r : Counter) (today : JStr)
    (o : GenOptions) :
    matchesCriteria { nsp := nsp0, pre := pre0, suf := none } r
        = (r.nsp == nsp0 && r.pre == pre0)
    ∧ resolvedCriteria today
          { nsp := o.nsp, pre := o.pre, suf := none, increment := o.increment }
        ≠ resolvedCriteria today
          { nsp := o.nsp, pre := o.pre, suf := some [], increment := o.increment }
    ∧ generateRun []
          { nsp := some ("Ticket".toList), pre := some ("26".toList),
            suf := none, increment := some 1 }
          [{ nsp := "Ticket".toList, pre := "26".toList, suf := some ("X".toList), seq := 5 }]
          [StoreReply.ok]
        = some (none,
            { nsp := "Ticket".toList, pre := "26".toList, suf := some ("X".toList), seq := 6 },
            [{ nsp := "Ticket".toList, pre := "26".toList, suf := some ("X".toList), seq := 6 }])
    ∧ generateRun []
          { nsp := some ("Ticket".toList), pre := some ("26".toList),
            suf := some [], increment := some 1 }
          [{ nsp := "Ticket".toList, pre := "26".toList, suf := some ("X".toList), seq := 5 }]
          [StoreReply.ok]
        = some (none,
            { nsp := "Ticket".toList, pre := "26".toList, suf := some [], seq := 1 },
            [{ nsp := "Ticket".toList, pre := "26".toList, suf := some ("X".toList), seq := 5 },
             { nsp := "Ticket".toList, pre := "26".toList, suf := some [], seq := 1 }]) := by
  refine ⟨?_, ?_, ?_, ?_⟩
  · simp [matchesCriteria]
  · simp [resolvedCriteria]
  · decide
  · decide

/-- C5, witness: the amended formatter equation applied at the concrete
VIP arguments. -/
theorem c5_witness :
    doFormat
        { nsp := [], pre := ("VIP".toList), seqN := 1, suf := some [],
          length := 4, pad := ("0".toList), separator := [], date := [] }
      = ("VIP".toList) ++ ([] : JStr)
          ++ (padStart (intRender 1) 4 ("0".toList)
              ++ (([] : JStr) ++ (some ([] : JStr)).getD []))
    ∧ doFormat
        { nsp := [], pre := ("VIP".toList), seqN := 1, suf := some [],
          length := 4, pad := ("0".toList), separator := [], date := [] }
      = ("VIP0001".toList) :=
  c5_default_formatter
    { nsp := [], pre := ("VIP".toList), seqN := 1, suf := some [],
      length := 4, pad := ("0".toList), separator := [], date := [] }

/-- C10, witness: the suffix-free criteria constrain only namespace and
prefix, applied at a concrete row whose stored suffix is present. -/
theorem c10_witness :
    matchesCriteria { nsp := [], pre := [], suf := none }
        { nsp := [], pre := [], suf := some ("X".toList), seq := 0 }
      = (({ nsp := [], pre := [], suf := some ("X".toList), seq := 0 } : Counter).nsp == []
         && ({ nsp := [], pre := [], suf := some ("X".toList), seq := 0 } : Counter).pre == []) :=
  (c10_suffix_criteria [] []
    { nsp := [], pre := [], suf := some ("X".toList), seq := 0 } [] {}).1
